import Mathlib

/-!
# Verification of the element-wise compute surface of `arrow/compute/api_scalar.h`

The repository ships only the public header `cpp/src/arrow/compute/api_scalar.h`
(declarations and doc comments); the kernel implementations live elsewhere.
The definitions below are therefore modelled from the specification of the
dispatch layer: nullable elements are `Option` values, an `Array` of booleans
is a `List (Option Bool)`, numeric containers keep the scalar / array /
chunked-array distinction, and fallible operations return `Except ArrowError`.
-/

namespace Arrow

/-- Error taxonomy of the dispatch layer (spec section 7). -/
inductive ArrowError
  | shapeMismatch
  | typeMismatch
  deriving DecidableEq, Repr

/-- A boolean container: one validity-tagged boolean per position
(`none` is a null element). -/
abbrev BoolDatum := List (Option Bool)

/-- Modelled from the spec: the per-position kernel of `And`
(implementation not under `src/`): "null propagates unconditionally — if
either operand is null at a position, the result is null at that position,
regardless of the other operand's value". -/
def andElem : Option Bool → Option Bool → Option Bool
  | some a, some b => some (a && b)
  | _, _ => none

/-- Modelled from the spec: the per-position kernel of `Or`
(implementation not under `src/`): null propagates unconditionally. -/
def orElem : Option Bool → Option Bool → Option Bool
  | some a, some b => some (a || b)
  | _, _ => none

/-- Modelled from the spec: the per-position kernel of `Xor`
(implementation not under `src/`): the spec assumes the same unconditional
null propagation as `And` and `Or`. -/
def xorElem : Option Bool → Option Bool → Option Bool
  | some a, some b => some (xor a b)
  | _, _ => none

/-- Modelled from the spec: the per-position kernel of `KleeneAnd`
(implementation not under `src/`): `false AND anything = false` (even if the
other side is null); `null AND true = null`; `null AND null = null`. -/
def kleeneAndElem : Option Bool → Option Bool → Option Bool
  | some false, _ => some false
  | _, some false => some false
  | some true, some true => some true
  | _, _ => none

/-- Modelled from the spec: the per-position kernel of `KleeneOr`
(implementation not under `src/`): `true OR anything = true` (even if the
other side is null); `null OR false = null`; `null OR null = null`. -/
def kleeneOrElem : Option Bool → Option Bool → Option Bool
  | some true, _ => some true
  | _, some true => some true
  | some false, some false => some false
  | _, _ => none

/-- Shared dispatch of a binary boolean operation: non-scalar operands of an
elementwise operation must have equal logical length (spec section 7,
ShapeMismatch), otherwise apply the element kernel positionwise. -/
def binaryBoolOp (f : Option Bool → Option Bool → Option Bool)
    (l r : BoolDatum) : Except ArrowError BoolDatum :=
  if l.length = r.length then .ok (List.zipWith f l r) else .error .shapeMismatch

/-- Modelled from the spec: `And` — element-wise AND of two boolean datums
which always propagates nulls (null and false is null). -/
def And (l r : BoolDatum) : Except ArrowError BoolDatum := binaryBoolOp andElem l r

/-- Modelled from the spec: `Or` — element-wise OR of two boolean datums
which always propagates nulls (null and true is null). -/
def Or (l r : BoolDatum) : Except ArrowError BoolDatum := binaryBoolOp orElem l r

/-- Modelled from the spec: `Xor` — element-wise XOR of two boolean datums,
with the unconditional null propagation the spec infers for it. -/
def Xor (l r : BoolDatum) : Except ArrowError BoolDatum := binaryBoolOp xorElem l r

/-- Modelled from the spec: `KleeneAnd` — element-wise AND with the Kleene
truth table (null and false is false). -/
def KleeneAnd (l r : BoolDatum) : Except ArrowError BoolDatum :=
  binaryBoolOp kleeneAndElem l r

/-- Modelled from the spec: `KleeneOr` — element-wise OR with the Kleene
truth table (null or true is true). -/
def KleeneOr (l r : BoolDatum) : Except ArrowError BoolDatum :=
  binaryBoolOp kleeneOrElem l r

/-- Modelled from the spec: `Invert` — unary negation of a boolean datum;
null propagates (null stays null). -/
def Invert (v : BoolDatum) : BoolDatum := v.map (Option.map not)

/-- Positionwise description of `List.zipWith` through optional indexing. -/
theorem getElem?_zipWith {α β γ : Type} (f : α → β → γ) :
    ∀ (l : List α) (r : List β) (i : Nat),
      (List.zipWith f l r)[i]? =
        match l[i]?, r[i]? with
        | some a, some b => some (f a b)
        | _, _ => none
  | [], [], _ => by simp
  | [], _ :: _, i => by simp
  | _ :: _, [], i => by cases i <;> simp
  | a :: l, b :: r, 0 => by simp
  | a :: l, b :: r, (i + 1) => by
      simpa using getElem?_zipWith f l r i

/-- If two lists have equal length, a position valid in the first is valid in
the second. -/
theorem getElem?_other {α β : Type} (l : List α) (r : List β)
    (h : l.length = r.length) {i : Nat} {x : α} (hx : l[i]? = some x) :
    ∃ y, r[i]? = some y := by
  have hi : i < l.length := by
    by_contra hnot
    push_neg at hnot
    rw [List.getElem?_eq_none hnot] at hx
    exact Option.noConfusion hx
  exact ⟨_, List.getElem?_eq_getElem (h ▸ hi)⟩

/-- C1: per position, `KleeneAnd` returns false whenever either operand is
false (even if the other is null) and returns null when one operand is null
and the other is true or null; symmetrically `KleeneOr` returns true whenever
either operand is true and null when one operand is null and the other is
false or null. -/
theorem kleene_truth_tables (l r : BoolDatum) (h : l.length = r.length) (i : Nat) :
    ∃ a o, KleeneAnd l r = Except.ok a ∧ KleeneOr l r = Except.ok o
      ∧ ((l[i]? = some (some false) ∨ r[i]? = some (some false)) →
          a[i]? = some (some false))
      ∧ ((l[i]? = some none ∧ (r[i]? = some (some true) ∨ r[i]? = some none)) ∨
         (r[i]? = some none ∧ (l[i]? = some (some true) ∨ l[i]? = some none)) →
          a[i]? = some none)
      ∧ ((l[i]? = some (some true) ∨ r[i]? = some (some true)) →
          o[i]? = some (some true))
      ∧ ((l[i]? = some none ∧ (r[i]? = some (some false) ∨ r[i]? = some none)) ∨
         (r[i]? = some none ∧ (l[i]? = some (some false) ∨ l[i]? = some none)) →
          o[i]? = some none) := by
  refine ⟨List.zipWith kleeneAndElem l r, List.zipWith kleeneOrElem l r,
    by simp [KleeneAnd, binaryBoolOp, h], by simp [KleeneOr, binaryBoolOp, h],
    ?_, ?_, ?_, ?_⟩
  · rintro (hl | hr)
    · obtain ⟨y, hy⟩ := getElem?_other l r h hl
      rw [getElem?_zipWith, hl, hy]
      rcases y with _ | b
      · rfl
      · cases b <;> rfl
    · obtain ⟨x, hx⟩ := getElem?_other r l h.symm hr
      rw [getElem?_zipWith, hx, hr]
      rcases x with _ | b
      · rfl
      · cases b <;> rfl
  · rintro (⟨hl, hr | hr⟩ | ⟨hr, hl | hl⟩) <;> rw [getElem?_zipWith, hl, hr] <;> rfl
  · rintro (hl | hr)
    · obtain ⟨y, hy⟩ := getElem?_other l r h hl
      rw [getElem?_zipWith, hl, hy]
      rcases y with _ | b
      · rfl
      · cases b <;> rfl
    · obtain ⟨x, hx⟩ := getElem?_other r l h.symm hr
      rw [getElem?_zipWith, hx, hr]
      rcases x with _ | b
      · rfl
      · cases b <;> rfl
  · rintro (⟨hl, hr | hr⟩ | ⟨hr, hl | hl⟩) <;> rw [getElem?_zipWith, hl, hr] <;> rfl

/-- C1 witness: at the concrete position 0 of `[false] KleeneAnd [null]` the
result is false, and `[true] KleeneOr [null]` gives true. -/
theorem kleene_truth_tables_witness :
    ∃ a, KleeneAnd [some false] [none] = Except.ok a ∧ a[0]? = some (some false) := by
  obtain ⟨a, o, ha, ho, hfalse, -, -, -⟩ :=
    kleene_truth_tables [some false] [none] rfl 0
  exact ⟨a, ha, hfalse (Or.inl rfl)⟩

/-- C2: per position, if either operand of `And` or `Or` is null then the
result of both `And` and `Or` is null, regardless of the other operand. -/
theorem standard_null_propagation (l r : BoolDatum) (h : l.length = r.length)
    (i : Nat) (hnull : l[i]? = some none ∨ r[i]? = some none) :
    ∃ a o, And l r = Except.ok a ∧ Or l r = Except.ok o
      ∧ a[i]? = some none ∧ o[i]? = some none := by
  refine ⟨List.zipWith andElem l r, List.zipWith orElem l r,
    by simp [And, binaryBoolOp, h], by simp [Or, binaryBoolOp, h], ?_, ?_⟩ <;>
  · rcases hnull with hl | hr
    · obtain ⟨y, hy⟩ := getElem?_other l r h hl
      rw [getElem?_zipWith, hl, hy]
      rcases y with _ | b <;> rfl
    · obtain ⟨x, hx⟩ := getElem?_other r l h.symm hr
      rw [getElem?_zipWith, hx, hr]
      rcases x with _ | b <;> rfl

/-- C2 witness: `And([null],[false])` and `Or([null],[true])` are null at
position 0 (null side with a decided other side). -/
theorem standard_null_propagation_witness :
    ∃ a o, And [none] [some false] = Except.ok a ∧ Or [none] [some false] = Except.ok o
      ∧ a[0]? = some none ∧ o[0]? = some none :=
  standard_null_propagation [none] [some false] rfl 0 (Or.inl rfl)

/-- C8: per position, if either operand of `Xor` is null then the result of
`Xor` is null, regardless of the other operand (same unconditional
null-propagation rule as `And` and `Or`). -/
theorem xor_null_propagation (l r : BoolDatum) (h : l.length = r.length)
    (i : Nat) (hnull : l[i]? = some none ∨ r[i]? = some none) :
    ∃ a, Xor l r = Except.ok a ∧ a[i]? = some none := by
  refine ⟨List.zipWith xorElem l r, by simp [Xor, binaryBoolOp, h], ?_⟩
  rcases hnull with hl | hr
  · obtain ⟨y, hy⟩ := getElem?_other l r h hl
    rw [getElem?_zipWith, hl, hy]
    rcases y with _ | b <;> rfl
  · obtain ⟨x, hx⟩ := getElem?_other r l h.symm hr
    rw [getElem?_zipWith, hx, hr]
    rcases x with _ | b <;> rfl

/-- C8 witness: `Xor([null],[true])` is null at position 0. -/
theorem xor_null_propagation_witness :
    ∃ a, Xor [none] [some true] = Except.ok a ∧ a[0]? = some none :=
  xor_null_propagation [none] [some true] rfl 0 (Or.inl rfl)

/-- A numeric value container (the polymorphic Datum of spec section 3):
a single possibly-null scalar, an array of possibly-null elements, or a
chunked array whose chunks form one logical column. -/
inductive NumDatum
  | scalar : Option Int → NumDatum
  | array : List (Option Int) → NumDatum
  | chunked : List (List (Option Int)) → NumDatum
  deriving DecidableEq, Repr

/-- Whether the container is a scalar (broadcast) operand. -/
def NumDatum.isScalar : NumDatum → Bool
  | .scalar _ => true
  | _ => false

/-- The logical element sequence of a container: a chunked array is its
chunks concatenated, a scalar is a single element. -/
def NumDatum.elems : NumDatum → List (Option Int)
  | .scalar v => [v]
  | .array xs => xs
  | .chunked cs => cs.flatten

/-- The logical length of a container. -/
def NumDatum.logicalLength (d : NumDatum) : Nat := d.elems.length

/-- Modelled from the spec: the per-position numeric kernel (implementations
not under `src/`): the output element is null if either input element is
null, otherwise the elementwise arithmetic result. -/
def arithElem (f : Int → Int → Int) : Option Int → Option Int → Option Int
  | some x, some y => some (f x y)
  | _, _ => none

/-- Modelled from the spec: dispatch of a binary elementwise arithmetic
operation (implementations not under `src/`): a scalar operand is broadcast
to the other operand's length; two non-scalar operands must have equal
logical length, otherwise the operation fails with a shape mismatch and
produces no output. -/
def arith (f : Int → Int → Int) (l r : NumDatum) : Except ArrowError NumDatum :=
  match l, r with
  | .scalar a, .scalar b => .ok (.scalar (arithElem f a b))
  | .scalar a, r => .ok (.array (r.elems.map (fun b => arithElem f a b)))
  | l, .scalar b => .ok (.array (l.elems.map (fun a => arithElem f a b)))
  | l, r =>
      if l.logicalLength = r.logicalLength
      then .ok (.array (List.zipWith (arithElem f) l.elems r.elems))
      else .error .shapeMismatch

/-- Modelled from the spec: `Add` — elementwise sum; if either addend is null
the result is null; array operands must have the same length. -/
def Add (l r : NumDatum) : Except ArrowError NumDatum := arith (· + ·) l r

/-- Modelled from the spec: `Subtract` — elementwise difference; if the
minuend or subtrahend is null the result is null. -/
def Subtract (l r : NumDatum) : Except ArrowError NumDatum := arith (· - ·) l r

/-- Modelled from the spec: `Multiply` — elementwise product; if either
factor is null the result is null. -/
def Multiply (l r : NumDatum) : Except ArrowError NumDatum := arith (· * ·) l r

/-- Positionwise behaviour of an arithmetic dispatch on two equal-length
arrays: nulls propagate from either side, values combine with `f`. -/
theorem arith_array_spec (f : Int → Int → Int) (l r : List (Option Int))
    (h : l.length = r.length) (i : Nat) :
    ∃ out, arith f (.array l) (.array r) = Except.ok (.array out)
      ∧ (out[i]? = some none ↔ (l[i]? = some none ∧ ∃ y, r[i]? = some y)
          ∨ (r[i]? = some none ∧ ∃ x, l[i]? = some x))
      ∧ (∀ x y : Int, l[i]? = some (some x) → r[i]? = some (some y) →
          out[i]? = some (some (f x y))) := by
  refine ⟨List.zipWith (arithElem f) l r,
    by simp [arith, NumDatum.logicalLength, NumDatum.elems, h], ?_, ?_⟩
  · rw [getElem?_zipWith]
    constructor
    · rcases hx : l[i]? with _ | x
      · intro hcontra
        simp at hcontra
      · rcases hy : r[i]? with _ | y
        · intro hcontra
          simp at hcontra
        · intro hval
          rcases x with _ | x
          · exact Or.inl ⟨rfl, y, rfl⟩
          · rcases y with _ | y
            · exact Or.inr ⟨rfl, some x, rfl⟩
            · simp [arithElem] at hval
    · rintro (⟨hl, y, hy⟩ | ⟨hr, x, hx⟩)
      · rw [hl, hy]
        rcases y with _ | y <;> rfl
      · rw [hx, hr]
        rcases x with _ | x <;> rfl
  · intro x y hx hy
    rw [getElem?_zipWith, hx, hy]
    rfl

/-- C5: for equal-length numeric arrays, `Add`, `Subtract` and `Multiply`
are null exactly where at least one input is null, and elsewhere hold the
elementwise sum, difference and product. -/
theorem arith_null_rule (l r : List (Option Int)) (h : l.length = r.length)
    (i : Nat) :
    ∃ a s m, Add (.array l) (.array r) = Except.ok (.array a)
      ∧ Subtract (.array l) (.array r) = Except.ok (.array s)
      ∧ Multiply (.array l) (.array r) = Except.ok (.array m)
      ∧ (a[i]? = some none ↔ (l[i]? = some none ∧ ∃ y, r[i]? = some y)
          ∨ (r[i]? = some none ∧ ∃ x, l[i]? = some x))
      ∧ (s[i]? = some none ↔ (l[i]? = some none ∧ ∃ y, r[i]? = some y)
          ∨ (r[i]? = some none ∧ ∃ x, l[i]? = some x))
      ∧ (m[i]? = some none ↔ (l[i]? = some none ∧ ∃ y, r[i]? = some y)
          ∨ (r[i]? = some none ∧ ∃ x, l[i]? = some x))
      ∧ (∀ x y : Int, l[i]? = some (some x) → r[i]? = some (some y) →
          a[i]? = some (some (x + y)) ∧ s[i]? = some (some (x - y))
            ∧ m[i]? = some (some (x * y))) := by
  obtain ⟨a, ha, hanull, haval⟩ := arith_array_spec (· + ·) l r h i
  obtain ⟨s, hs, hsnull, hsval⟩ := arith_array_spec (· - ·) l r h i
  obtain ⟨m, hm, hmnull, hmval⟩ := arith_array_spec (· * ·) l r h i
  exact ⟨a, s, m, ha, hs, hm, hanull, hsnull, hmnull,
    fun x y hx hy => ⟨haval x y hx hy, hsval x y hx hy, hmval x y hx hy⟩⟩

/-- C5 witness: `Add([1,null,3],[10,20,null]) = [11,null,null]`. -/
theorem arith_null_rule_witness :
    ∃ a s m, Add (.array [some 1, none, some 3]) (.array [some 10, some 20, none])
        = Except.ok (.array a)
      ∧ Subtract (.array [some 1, none, some 3]) (.array [some 10, some 20, none])
        = Except.ok (.array s)
      ∧ Multiply (.array [some 1, none, some 3]) (.array [some 10, some 20, none])
        = Except.ok (.array m)
      ∧ a[0]? = some (some 11) ∧ a[1]? = some none ∧ a[2]? = some none := by
  obtain ⟨a, s, m, ha, hs, hm, h1null, -, -, hval⟩ :=
    arith_null_rule [some 1, none, some 3] [some 10, some 20, none] rfl 0
  obtain ⟨a1, s1, m1, ha1, hs1, hm1, h1null1, -, -, -⟩ :=
    arith_null_rule [some 1, none, some 3] [some 10, some 20, none] rfl 1
  obtain ⟨a2, s2, m2, ha2, hs2, hm2, h2null2, -, -, -⟩ :=
    arith_null_rule [some 1, none, some 3] [some 10, some 20, none] rfl 2
  have e1 : a1 = a := by
    have := ha1.symm.trans ha
    simpa using this
  have e2 : a2 = a := by
    have := ha2.symm.trans ha
    simpa using this
  refine ⟨a, s, m, ha, hs, hm, (hval 1 10 rfl rfl).1, ?_, ?_⟩
  · rw [← e1]
    exact h1null1.mpr (Or.inl ⟨rfl, some 20, rfl⟩)
  · rw [← e2]
    exact h2null2.mpr (Or.inr ⟨rfl, some 3, rfl⟩)

/-- C6: two non-scalar operands of different logical lengths make `Add`,
`Subtract` and `Multiply` fail with a shape mismatch and produce no output. -/
theorem arith_shape_mismatch (l r : NumDatum) (hl : l.isScalar = false)
    (hr : r.isScalar = false) (h : l.logicalLength ≠ r.logicalLength) :
    Add l r = Except.error .shapeMismatch
      ∧ Subtract l r = Except.error .shapeMismatch
      ∧ Multiply l r = Except.error .shapeMismatch := by
  rcases l with v | xs | cs <;> rcases r with w | ys | ds <;>
    simp_all [NumDatum.isScalar, Add, Subtract, Multiply, arith]

/-- C6 witness: `Add` on an array of length 3 and an array of length 4 fails
with a shape mismatch. -/
theorem arith_shape_mismatch_witness :
    Add (.array [some 1, some 2, some 3]) (.array [some 1, some 2, some 3, some 4])
      = Except.error .shapeMismatch :=
  (arith_shape_mismatch (.array [some 1, some 2, some 3])
    (.array [some 1, some 2, some 3, some 4]) rfl rfl (by decide)).1

/-- The fixed set of comparison operators selected by `CompareOptions`. -/
inductive CompareOperator
  | EQUAL
  | NOT_EQUAL
  | GREATER
  | GREATER_EQUAL
  | LESS
  | LESS_EQUAL
  deriving DecidableEq, Repr

/-- Immutable options object holding one comparison operator. -/
structure CompareOptions where
  op : CompareOperator
  deriving DecidableEq, Repr

/-- A floating-point value for the comparison kernel, abstracted to the
distinction the IEEE-754 comparison semantics turn on: an ordered finite
value (modelled over ℚ) or the unordered NaN. -/
inductive FVal
  | nan
  | num (q : ℚ)
  deriving DecidableEq, Repr

/-- Modelled from the spec: the elementwise IEEE-754 comparison kernel
(implementation not under `src/`): NaN is unordered, so EQUAL, GREATER,
GREATER_EQUAL, LESS and LESS_EQUAL are false and NOT_EQUAL is true whenever
either operand is NaN. -/
def ieeeCompare (op : CompareOperator) (a b : FVal) : Bool :=
  match a, b with
  | .num x, .num y =>
    match op with
    | .EQUAL => decide (x = y)
    | .NOT_EQUAL => decide (x ≠ y)
    | .GREATER => decide (x > y)
    | .GREATER_EQUAL => decide (x ≥ y)
    | .LESS => decide (x < y)
    | .LESS_EQUAL => decide (x ≤ y)
  | _, _ => decide (op = .NOT_EQUAL)

/-- Modelled from the spec: `Compare` of an array against a scalar of the
same element type, applying the operator of the options; the output is null
wherever either side is null. -/
def Compare (left : List (Option FVal)) (right : Option FVal)
    (options : CompareOptions) : List (Option Bool) :=
  left.map (fun a =>
    match a, right with
    | some x, some y => some (ieeeCompare options.op x y)
    | _, _ => none)

/-- C7: when either compared element is NaN, EQUAL, GREATER, GREATER_EQUAL,
LESS and LESS_EQUAL produce false at that position and NOT_EQUAL produces
true (IEEE-754 unordered semantics). -/
theorem compare_nan_unordered (l : List (Option FVal)) (s : Option FVal)
    (i : Nat) (x y : FVal) (hx : l[i]? = some (some x)) (hs : s = some y)
    (hnan : x = FVal.nan ∨ y = FVal.nan) (op : CompareOperator) :
    (Compare l s ⟨op⟩)[i]? =
      some (some (decide (op = CompareOperator.NOT_EQUAL))) := by
  subst hs
  simp only [Compare, List.getElem?_map, hx, Option.map_some]
  rcases hnan with hxn | hyn
  · subst hxn
    cases y <;> rfl
  · subst hyn
    cases x <;> rfl

/-- C7 witness: `Compare([NaN], Scalar(1.0), GREATER) = [false]` and
`Compare([NaN], Scalar(1.0), NOT_EQUAL) = [true]`. -/
theorem compare_nan_unordered_witness :
    (Compare [some FVal.nan] (some (FVal.num 1)) ⟨.GREATER⟩)[0]? = some (some false)
    ∧ (Compare [some FVal.nan] (some (FVal.num 1)) ⟨.NOT_EQUAL⟩)[0]?
        = some (some true) :=
  ⟨compare_nan_unordered [some FVal.nan] (some (FVal.num 1)) 0 FVal.nan
      (FVal.num 1) rfl rfl (Or.inl rfl) .GREATER,
   compare_nan_unordered [some FVal.nan] (some (FVal.num 1)) 0 FVal.nan
      (FVal.num 1) rfl rfl (Or.inl rfl) .NOT_EQUAL⟩

/-- Immutable options object of the set-lookup family: a value set and a
`skip_nulls` flag (spec section 3). -/
structure SetLookupOptions where
  value_set : List (Option Int)
  skip_nulls : Bool
  deriving DecidableEq, Repr

/-- Modelled from the spec: `IsIn` (implementation not under `src/`) —
one boolean per `values` element, true iff the value occurs anywhere in
`value_set`; a null probe element is true when `value_set` contains a null
and null otherwise. -/
def IsIn (values value_set : List (Option Int)) : List (Option Bool) :=
  values.map (fun v =>
    match v with
    | some x => some (decide (some x ∈ value_set))
    | none => if none ∈ value_set then some true else none)

/-- The value set conceptually deduplicated for lookup purposes: distinct
values in order of first appearance, null being a distinct key. -/
def distinctKeys (value_set : List (Option Int)) : List (Option Int) :=
  value_set.foldl (fun acc v => if v ∈ acc then acc else acc ++ [v]) []

/-- Index of the first occurrence of a key in a list of keys, if any. -/
def lookupIndex (v : Option Int) : List (Option Int) → Option Nat
  | [] => none
  | w :: rest => if w = v then some 0 else (lookupIndex v rest).map (· + 1)

/-- Modelled from the spec: `Match` (implementation not under `src/`) — one
integer per `values` element, the index of the value's first distinct
occurrence within `value_set` (duplicates collapse), null when absent; a
null probe matches a null key in the set. -/
def Match (values value_set : List (Option Int)) : List (Option Nat) :=
  values.map (fun v => lookupIndex v (distinctKeys value_set))

/-- The accumulator-generalized membership law of the deduplication fold. -/
theorem mem_foldl_dedup (v : Option Int) :
    ∀ (s acc : List (Option Int)),
      (v ∈ s.foldl (fun acc w => if w ∈ acc then acc else acc ++ [w]) acc
        ↔ v ∈ acc ∨ v ∈ s)
  | [], acc => by simp
  | a :: s, acc => by
    rw [List.foldl_cons, mem_foldl_dedup v s]
    by_cases ha : a ∈ acc
    · simp only [if_pos ha, List.mem_cons]
      constructor
      · rintro (h | h)
        · exact Or.inl h
        · exact Or.inr (Or.inr h)
      · rintro (h | h | h)
        · exact Or.inl h
        · exact Or.inl (h ▸ ha)
        · exact Or.inr h
    · simp only [if_neg ha, List.mem_append, List.mem_singleton, List.mem_cons]
      tauto

/-- Deduplication preserves membership. -/
theorem mem_distinctKeys (v : Option Int) (s : List (Option Int)) :
    v ∈ distinctKeys s ↔ v ∈ s := by
  rw [distinctKeys, mem_foldl_dedup]
  simp

/-- `lookupIndex` returns `none` exactly on absent keys. -/
theorem lookupIndex_eq_none (v : Option Int) :
    ∀ l : List (Option Int), lookupIndex v l = none ↔ v ∉ l
  | [] => by simp [lookupIndex]
  | w :: rest => by
    rw [lookupIndex]
    by_cases hw : w = v
    · simp [hw]
    · rw [if_neg hw, List.mem_cons]
      rcases h : lookupIndex v rest with _ | j
      · have hrest := (lookupIndex_eq_none v rest).mp h
        have hvw : v ≠ w := fun hvw => hw hvw.symm
        simp [h, hrest, hvw]
      · have hvrest : v ∈ rest := by
          by_contra hnot
          rw [← lookupIndex_eq_none v rest] at hnot
          rw [h] at hnot
          exact Option.noConfusion hnot
        simp [h, hvrest]

/-- A successful `lookupIndex` names the first position holding the key. -/
theorem lookupIndex_spec (v : Option Int) :
    ∀ (l : List (Option Int)) (j : Nat), lookupIndex v l = some j →
      l[j]? = some v ∧ ∀ k, k < j → l[k]? ≠ some v
  | [], j => by simp [lookupIndex]
  | w :: rest, j => by
    rw [lookupIndex]
    by_cases hw : w = v
    · rw [if_pos hw]
      intro hj
      have : j = 0 := by simpa using hj.symm
      subst this
      exact ⟨by simp [hw], fun k hk => absurd hk (Nat.not_lt_zero k)⟩
    · rw [if_neg hw]
      rcases h : lookupIndex v rest with _ | j0
      · intro hcontra
        exact Option.noConfusion hcontra
      · intro hj
        have hj0 : j = j0 + 1 := by simpa using hj.symm
        subst hj0
        obtain ⟨hmem, hfirst⟩ := lookupIndex_spec v rest j0 h
        refine ⟨by simpa using hmem, ?_⟩
        intro k hk
        rcases k with _ | k
        · simpa using hw
        · have : k < j0 := Nat.lt_of_succ_lt_succ hk
          simpa using hfirst k this

/-- C3: `Match` maps each `values` element to the index of its first
distinct occurrence in `value_set` (null being a distinct key), null when
absent; in particular the two authoritative worked examples hold. -/
theorem match_first_distinct_index (values vs : List (Option Int)) (i : Nat)
    (v : Option Int) (hv : values[i]? = some v) :
    ((v ∉ vs → (Match values vs)[i]? = some none)
      ∧ (v ∈ vs → ∃ j, (Match values vs)[i]? = some (some j)
          ∧ (distinctKeys vs)[j]? = some v
          ∧ ∀ k, k < j → (distinctKeys vs)[k]? ≠ some v))
    ∧ Match [some 99, some 42, some 3, none] [some 3, some 3, some 99]
        = [some 1, none, some 0, none]
    ∧ Match [some 99, some 42, some 3, none] [some 3, some 99, none]
        = [some 1, none, some 0, some 2] := by
  refine ⟨⟨?_, ?_⟩, by decide, by decide⟩
  · intro hout
    have : v ∉ distinctKeys vs := fun hmem => hout ((mem_distinctKeys v vs).mp hmem)
    rw [← lookupIndex_eq_none] at this
    simp [Match, List.getElem?_map, hv, this]
  · intro hin
    have hmem : v ∈ distinctKeys vs := (mem_distinctKeys v vs).mpr hin
    rcases h : lookupIndex v (distinctKeys vs) with _ | j
    · exact absurd ((lookupIndex_eq_none v (distinctKeys vs)).mp h) (by simp [hmem])
    · obtain ⟨hat, hfirst⟩ := lookupIndex_spec v (distinctKeys vs) j h
      exact ⟨j, by simp [Match, List.getElem?_map, hv, h], hat, hfirst⟩

/-- C3 witness: in `Match([99,42,3,null],[3,99,null])` the element 99 maps
to index 1 of the deduplicated value set. -/
theorem match_first_distinct_index_witness :
    ∃ j, (Match [some 99, some 42, some 3, none] [some 3, some 99, none])[0]?
        = some (some j)
      ∧ (distinctKeys [some 3, some 99, none])[j]? = some (some 99) := by
  obtain ⟨⟨-, hfound⟩, -, -⟩ :=
    match_first_distinct_index [some 99, some 42, some 3, none]
      [some 3, some 99, none] 0 (some 99) rfl
  obtain ⟨j, hj, hat, -⟩ := hfound (by decide)
  exact ⟨j, hj, hat⟩

/-- C4: `IsIn` is true at a position exactly when the (non-null) value
occurs in `value_set`, false exactly when it does not; a null probe element
is true when `value_set` contains a null and null otherwise; in particular
`IsIn([null],[1,2]) = [null]` and `IsIn([null],[1,null]) = [true]`. -/
theorem isin_membership (values vs : List (Option Int)) (i : Nat) :
    ((∀ x : Int, values[i]? = some (some x) →
        ((IsIn values vs)[i]? = some (some true) ↔ some x ∈ vs)
        ∧ ((IsIn values vs)[i]? = some (some false) ↔ some x ∉ vs))
      ∧ (values[i]? = some none → none ∈ vs →
          (IsIn values vs)[i]? = some (some true))
      ∧ (values[i]? = some none → none ∉ vs →
          (IsIn values vs)[i]? = some none))
    ∧ IsIn [none] [some 1, some 2] = [none]
    ∧ IsIn [none] [some 1, none] = [some true] := by
  refine ⟨⟨?_, ?_, ?_⟩, by decide, by decide⟩
  · intro x hx
    constructor
    · simp [IsIn, List.getElem?_map, hx]
    · simp [IsIn, List.getElem?_map, hx]
  · intro hx hmem
    simp [IsIn, List.getElem?_map, hx, hmem]
  · intro hx hmem
    simp [IsIn, List.getElem?_map, hx, hmem]

/-- C4 witness: `IsIn([7],[7])` is true at position 0 and
`IsIn([7],[8])` is false at position 0. -/
theorem isin_membership_witness :
    (IsIn [some 7] [some 7])[0]? = some (some true)
    ∧ (IsIn [some 7] [some 8])[0]? = some (some false) := by
  obtain ⟨⟨hval, -, -⟩, -, -⟩ := isin_membership [some 7] [some 7] 0
  obtain ⟨⟨hval8, -, -⟩, -, -⟩ := isin_membership [some 7] [some 8] 0
  exact ⟨(hval 7 rfl).1.mpr (by decide), (hval8 7 rfl).2.mpr (by decide)⟩

/-- C10: the public `IsIn` and `Match` are deterministic functions of
`(values, value_set)` alone — equal inputs give equal outputs — and the
`skip_nulls` field of `SetLookupOptions` cannot influence them, since the
public entry points take no options object. -/
theorem setlookup_deterministic (values values2 : List (Option Int))
    (o o2 : SetLookupOptions) (hv : values = values2)
    (hs : o.value_set = o2.value_set) :
    IsIn values o.value_set = IsIn values2 o2.value_set
    ∧ Match values o.value_set = Match values2 o2.value_set := by
  subst hv
  rw [hs]
  exact ⟨rfl, rfl⟩

/-- C10 witness: two options objects sharing a value set but with opposite
`skip_nulls` flags give identical `IsIn` and `Match` results. -/
theorem setlookup_deterministic_witness :
    IsIn [none, some 1] (SetLookupOptions.mk [some 1, none] true).value_set
      = IsIn [none, some 1] (SetLookupOptions.mk [some 1, none] false).value_set
    ∧ Match [none, some 1] (SetLookupOptions.mk [some 1, none] true).value_set
      = Match [none, some 1] (SetLookupOptions.mk [some 1, none] false).value_set :=
  setlookup_deterministic [none, some 1] [none, some 1]
    (SetLookupOptions.mk [some 1, none] true)
    (SetLookupOptions.mk [some 1, none] false) rfl rfl

/-- C9: `Invert(Invert(X))` equals `X` at every non-null position, and
`Invert` maps every null element to null. -/
theorem invert_involution_and_null (x : BoolDatum) (i : Nat) :
    (∀ b : Bool, x[i]? = some (some b) → (Invert (Invert x))[i]? = some (some b))
    ∧ (x[i]? = some none → (Invert x)[i]? = some none) := by
  constructor
  · intro b hb
    simp [Invert, List.getElem?_map, hb]
  · intro hb
    simp [Invert, List.getElem?_map, hb]

/-- C9 witness: double inversion of `[true]` gives back true at position 0,
and inverting `[null]` keeps null. -/
theorem invert_involution_and_null_witness :
    (Invert (Invert [some true, none]))[0]? = some (some true)
    ∧ (Invert [some true, none])[1]? = some none :=
  ⟨(invert_involution_and_null [some true, none] 0).1 true rfl,
   (invert_involution_and_null [some true, none] 1).2 rfl⟩

end Arrow
